import Mathlib

/-!
Verification of the GoDev "smart compiler" (`src/compiler-debian.js`, the
`DebianCompiler` class; the source file holds two snapshots of the class and
the second, larger snapshot is the one modelled here, it is the one all
line references of the specification point into).

The filesystem is modelled as a tree of entries.  A directory carries a
`readable` flag (false models an `EACCES`-style failure of `fs.readdir`),
a file carries its text content, a `readable` flag (for `fs.readFile`),
an `exec` flag (modelling `stat.mode & fs.constants.X_OK`, the bit the
source tests for), and an optional pre-parsed view of the file as a
`package.json` object (modelling `fs.readJson`: `none` means parsing the
file as JSON fails).  Paths are lists of name components, relative to the
project root entry; `renderAbs` turns them into the absolute strings the
source passes around (the resolved project root is a further list of
components `rootComps`).

External child processes (`make`, `gcc`, `npm install`, ...) are modelled
by an oracle `Env.run` mapping a command string and an optional working
directory to success or a failure message, mirroring `execAsync`.  The
outcome of the interactive `ensureDependencies` sequence (package probe,
prompt, `apt` install) is modelled by the oracle `Env.deps`.  Side effects
of external commands on the file tree are outside the model: scans always
read the tree as given.
-/

namespace SmartCompiler

/-- A parsed view of the `scripts` object of a `package.json`. -/
structure Scripts where
  start : Option String
  dev : Option String
deriving DecidableEq

/-- A parsed view of a `package.json` object, the fields the source reads. -/
structure Pkg where
  main : Option String
  scripts : Option Scripts
deriving DecidableEq

/-- Metadata of a regular file in the modelled tree. -/
structure FileData where
  content : String
  exec : Bool
  readable : Bool
  pkg : Option Pkg
deriving DecidableEq

/-- A filesystem entry: a regular file or a directory with children.
An unreadable directory models one on which `fs.readdir` fails. -/
inductive Entry where
  | file (name : String) (data : FileData) : Entry
  | dir (name : String) (readable : Bool) (children : List Entry) : Entry

/-- Path relative to the project root, as name components. -/
abbrev Path := List String

def Entry.name : Entry → String
  | .file n _ => n
  | .dir n _ _ => n

def Entry.isDir : Entry → Bool
  | .file _ _ => false
  | .dir _ _ _ => true

/-- A plain readable, non-executable file with given content. -/
def plainFile (n : String) (content : String := "") : Entry :=
  .file n { content := content, exec := false, readable := true, pkg := none }

/-- A readable executable-flagged file. -/
def execFile (n : String) : Entry :=
  .file n { content := "", exec := true, readable := true, pkg := none }

/-! ## String utilities mirroring the Node primitives the source uses -/

/-- `path.extname` of a base name: from the last dot to the end, empty if
there is no dot or the only dot is the leading character. -/
def extname (s : String) : String :=
  let l := s.toList
  match ((List.range l.length).filter (fun i => l.getD i ' ' = '.')).getLast? with
  | none => ""
  | some 0 => ""
  | some i => String.mk (l.drop i)

/-- JS `String.prototype.includes`: substring test. -/
def strContains (s sub : String) : Bool :=
  let ls := s.toList
  let lsub := sub.toList
  (List.range (ls.length + 1)).any (fun i => lsub.isPrefixOf (ls.drop i))

/-- JS `String.prototype.toLowerCase` (ASCII, the range the source relies on). -/
def strToLower (s : String) : String :=
  String.mk (s.toList.map Char.toLower)

/-- JS `String.prototype.startsWith('.')`, the hidden-directory test. -/
def startsWithDot (s : String) : Bool :=
  match s.toList with
  | c :: _ => c = '.'
  | [] => false

/-! ## The FileScanner: `findFileRecursive` and `findFilesRecursive` -/

/-- The directory names `findFilesRecursive` refuses to descend into
(besides names with a leading dot): source lines 771-776. -/
def filesExcludedDirs : List String := ["node_modules", "build", "target", "dist", "obj"]

/-- The directory names `findFileRecursive` refuses to descend into
(besides names with a leading dot): source lines 737-741.  Note `obj` is
absent here. -/
def fileExcludedDirs : List String := ["node_modules", "build", "target", "dist"]

/-- The names `fs.readdir` yields, `[]` when the read fails (a file or an
unreadable directory), as the callers' catch handlers treat it. -/
def childNamesD : Entry → List String
  | .file _ _ => []
  | .dir _ true ch => ch.map Entry.name
  | .dir _ false _ => []

mutual

/-- `findFileRecursive(dir, fileName)` (source lines 721-754): readdir the
directory (failure caught, yielding `none`), return the name joined to the
current path when it is among the immediate children, otherwise recurse
into each non-hidden, non-excluded subdirectory in order. -/
def findFileRecursive (e : Entry) (fileName : String) (cur : Path) : Option Path :=
  match e with
  | .file _ _ => none
  | .dir _ readable children =>
    if readable then
      if (children.map Entry.name).contains fileName then some (cur ++ [fileName])
      else findFileRecursiveList children fileName cur
    else none
termination_by structural e

/-- The subdirectory loop of `findFileRecursive` (source lines 731-748). -/
def findFileRecursiveList (l : List Entry) (fileName : String) (cur : Path) : Option Path :=
  match l with
  | [] => none
  | c :: rest =>
    if c.isDir && !(startsWithDot c.name) && !(fileExcludedDirs.contains c.name) then
      match findFileRecursive c fileName (cur ++ [c.name]) with
      | some p => some p
      | none => findFileRecursiveList rest fileName cur
    else findFileRecursiveList rest fileName cur
termination_by structural l

end

mutual

/-- `scanDirectory` of `findFilesRecursive` (source lines 759-792): collect
every regular file whose lower-cased extension is in `exts`, descending
into subdirectories except hidden ones and the fixed exclusion set; read
failures are caught and yield nothing. -/
def scanFiles (e : Entry) (exts : List String) (cur : Path) : List Path :=
  match e with
  | .file _ _ => []
  | .dir _ readable children =>
    if readable then scanFilesList children exts cur else []
termination_by structural e

/-- The item loop of `scanDirectory` (source lines 763-788). -/
def scanFilesList (l : List Entry) (exts : List String) (cur : Path) : List Path :=
  match l with
  | [] => []
  | c :: rest =>
    (match c with
     | .dir n _ _ =>
       if !(startsWithDot n) && !(filesExcludedDirs.contains n) then
         scanFiles c exts (cur ++ [n])
       else []
     | .file n _ =>
       if exts.contains (strToLower (extname n)) then [cur ++ [n]] else [])
    ++ scanFilesList rest exts cur
termination_by structural l

end

/-- `findFilesRecursive(dir, extensions)` (source lines 756-796). -/
def findFilesRecursive (e : Entry) (exts : List String) : List Path :=
  scanFiles e exts []

/-! ## Reading the tree at a path -/

/-- Walk a relative path down the tree. -/
def lookupPath : Entry → Path → Option Entry
  | e, [] => some e
  | e, n :: rest =>
    match e with
    | .file _ _ => none
    | .dir _ _ ch =>
      match ch.find? (fun c => c.name == n) with
      | some c => lookupPath c rest
      | none => none

/-- `fs.pathExists` on a path under the root. -/
def pathExists (root : Entry) (p : Path) : Bool :=
  (lookupPath root p).isSome

/-- Whether the root directory has an immediate child of the given name
(`fs.pathExists(path.join(projectPath, name))`). -/
def hasChild (root : Entry) (n : String) : Bool :=
  pathExists root [n]

/-- The immediate child of the given name, if any. -/
def getChild (root : Entry) (n : String) : Option Entry :=
  lookupPath root [n]

/-- `fs.readFile(path, 'utf8')` as an exceptions-as-values operation. -/
def readFileE (root : Entry) (p : Path) : Except String String :=
  match lookupPath root p with
  | some (.file _ d) =>
    if d.readable then .ok d.content
    else .error "EACCES: permission denied"
  | some (.dir _ _ _) => .error "EISDIR: illegal operation on a directory"
  | none => .error "ENOENT: no such file or directory"

/-- `fs.readFile(path, 'utf8').catch(() => '')` (source line 632). -/
def readFileCaught (root : Entry) (p : Path) : String :=
  match readFileE root p with
  | .ok s => s
  | .error _ => ""

/-- `fs.readJson` as an exceptions-as-values operation: yields the file's
pre-parsed `package.json` view, failing when the entry is missing, is a
directory, is unreadable, or does not parse as JSON. -/
def readJsonE (root : Entry) (p : Path) : Except String Pkg :=
  match lookupPath root p with
  | some (.file _ d) =>
    if d.readable then
      match d.pkg with
      | some pkg => .ok pkg
      | none => .error "Unexpected token in JSON"
    else .error "EACCES: permission denied"
  | some (.dir _ _ _) => .error "EISDIR: illegal operation on a directory"
  | none => .error "ENOENT: no such file or directory"

/-! ## The ProjectClassifier: `detectProjectType` (source lines 580-719) -/

/-- The fixed set of project-type tags the classifier can produce. -/
inductive ProjectType where
  | rust | go | nodejs | python | react | docker | c | cpp | web
deriving DecidableEq

/-- The config marker table of source lines 583-594, in declaration order
(`Object.entries` iterates string keys in insertion order). -/
def configFiles : List (String × ProjectType) :=
  [("Cargo.toml", .rust), ("go.mod", .go), ("package.json", .nodejs),
   ("requirements.txt", .python), ("setup.py", .python), ("pyproject.toml", .python),
   ("vite.config.js", .react), ("vite.config.ts", .react),
   ("Dockerfile", .docker), ("docker-compose.yml", .docker)]

/-- The alternate build-system table of source lines 657-661. -/
def buildFiles : List (String × ProjectType) :=
  [("CMakeLists.txt", .cpp), ("configure", .c), ("autogen.sh", .c)]

/-- The `for (const [file, lang] of Object.entries(...)) if (await
this.findFileRecursive(...)) return lang` loop shape, shared by the config
marker table and the alternate build-system table. -/
def firstFoundMarker (root : Entry) (table : List (String × ProjectType)) :
    Option ProjectType :=
  table.findSome? (fun pr =>
    if (findFileRecursive root pr.1 []).isSome then some pr.2 else none)

/-- `findFileRecursive('Makefile') || findFileRecursive('makefile')`
(source lines 627-628, also 884-885, 975-976, 1546-1547). -/
def mkLookup (root : Entry) : Option Path :=
  match findFileRecursive root "Makefile" [] with
  | some p => some p
  | none => findFileRecursive root "makefile" []

/-- The common-directory list of source line 700. -/
def detectCommonDirs : List String := ["src", "lib", "include", "source"]

/-- The last-resort loop of source lines 700-711: look inside conventional
source directories for native files, preferring C++. -/
def detectCommonDirsLoop (root : Entry) : List String → Option ProjectType
  | [] => none
  | d :: rest =>
    match getChild root d with
    | some sub =>
      let hasCFiles := !(findFilesRecursive sub [".c"]).isEmpty
      let hasCppFiles := !(findFilesRecursive sub [".cpp", ".cc", ".cxx"]).isEmpty
      if hasCppFiles then some .cpp
      else if hasCFiles then some .c
      else detectCommonDirsLoop root rest
    | none => detectCommonDirsLoop root rest

/-- Step 5 of the classifier (source lines 699-713). -/
def detectCommonDirsStep (root : Entry) : Except String (Option ProjectType) :=
  .ok (detectCommonDirsLoop root detectCommonDirs)

/-- The per-family counts of source lines 671-680, in declaration order. -/
def fileTypeCounts (root : Entry) : List (ProjectType × Nat) :=
  [(.c, (findFilesRecursive root [".c"]).length),
   (.cpp, (findFilesRecursive root [".cpp", ".cc", ".cxx"]).length),
   (.go, (findFilesRecursive root [".go"]).length),
   (.rust, (findFilesRecursive root [".rs"]).length),
   (.nodejs, (findFilesRecursive root [".js", ".mjs", ".cjs"]).length),
   (.python, (findFilesRecursive root [".py"]).length),
   (.react, (findFilesRecursive root [".jsx", ".tsx"]).length),
   (.web, (findFilesRecursive root [".html"]).length)]

/-- The strict-maximum fold of source lines 682-691 (ties keep the earlier
family). -/
def maxCountLang (l : List (ProjectType × Nat)) : Option ProjectType × Nat :=
  l.foldl (fun acc pr => if pr.2 > acc.2 then (some pr.1, pr.2) else acc) (none, 0)

/-- Step 4 of the classifier (source lines 670-697). -/
def detectByCountStep (root : Entry) : Except String (Option ProjectType) :=
  let res := maxCountLang (fileTypeCounts root)
  if res.1.isSome && res.2 > 0 then .ok res.1
  else detectCommonDirsStep root

/-- Step 3b of the classifier (source lines 656-668): the alternate native
build descriptors. -/
def detectBuildFilesStep (root : Entry) : Except String (Option ProjectType) :=
  match firstFoundMarker root buildFiles with
  | some lang => .ok (some lang)
  | none => detectByCountStep root

/-- Step 3a of the classifier (source lines 626-654): the Makefile rule.
When both source families exist, the project is C++ exactly when the
Makefile's content mentions `g++` or `.cpp`; with neither family present
the rule falls through. -/
def detectMakefileStep (root : Entry) : Except String (Option ProjectType) :=
  match mkLookup root with
  | some mk =>
    let makefileContent := readFileCaught root mk
    let hasCFiles := !(findFilesRecursive root [".c"]).isEmpty
    let hasCppFiles := !(findFilesRecursive root [".cpp", ".cc", ".cxx"]).isEmpty
    if hasCppFiles && !hasCFiles then .ok (some .cpp)
    else if hasCFiles && !hasCppFiles then .ok (some .c)
    else if hasCFiles && hasCppFiles then
      if strContains makefileContent "g++" || strContains makefileContent ".cpp" then
        .ok (some .cpp)
      else .ok (some .c)
    else detectBuildFilesStep root
  | none => detectBuildFilesStep root

/-- The body of `detectProjectType` (source lines 581-713), with every
internally caught failure already handled inside the called scanners;
an `Except` result so that the claim that no exception escapes to the
outer catch is expressible. -/
def detectProjectTypeE (root : Entry) : Except String (Option ProjectType) :=
  match firstFoundMarker root configFiles with
  | some lang => .ok (some lang)
  | none =>
    let hasHtmlFiles := !(findFilesRecursive root [".html"]).isEmpty
    let _hasCssFiles := !(findFilesRecursive root [".css"]).isEmpty
    let _hasJsFiles := !(findFilesRecursive root [".js", ".jsx", ".ts", ".tsx"]).isEmpty
    if hasHtmlFiles then
      if !(findFilesRecursive root [".jsx", ".tsx"]).isEmpty then .ok (some .react)
      else if !(hasChild root "node_modules") && !(hasChild root "package.json") then
        .ok (some .web)
      else detectMakefileStep root
    else detectMakefileStep root

/-- `detectProjectType` (source lines 580-719): the body wrapped in the
outer try/catch that converts any escaped error to `null`. -/
def detectProjectType (root : Entry) : Option ProjectType :=
  match detectProjectTypeE root with
  | .ok r => r
  | .error _ => none

/-! ## The BuildOrchestrator: `compile` and the per-type builders -/

/-- Outcome oracles for the external world: `run` models `execAsync`
(command string, optional working directory relative to the project root,
`none` meaning the process-wide working directory); `deps` models the
whole interactive `ensureDependencies` sequence for a language (package
probe, confirmation prompt, `apt` install), whose failure is a thrown
error (source lines 798-819). -/
structure Env where
  run : String → Option Path → Except String Unit
  deps : ProjectType → Except String Unit

/-- A build invocation's fixed data: the resolved absolute components of
the project root, the directory tree found there, and the oracles. -/
structure Ctx where
  rootComps : List String
  root : Entry
  env : Env

/-- Render a root-relative path as the absolute string the source passes
to commands and stores in results. -/
def renderAbs (ctx : Ctx) (p : Path) : String :=
  "/" ++ String.intercalate "/" (ctx.rootComps ++ p)

/-- Wrap in double quotes, as the source's template literals do. -/
def quoteStr (s : String) : String := "\"" ++ s ++ "\""

/-- The normalized build result (source returns object literals with these
fields; absent fields default like JS `undefined` rendered as `""`/`none`). -/
structure BuildResult where
  success : Bool
  output : String := ""
  executable : String := ""
  runtime : Option String := none
  error : Option String := none
deriving DecidableEq

/-- `getOutputName` (source lines 1358-1374). -/
def getOutputName (ctx : Ctx) (lang : ProjectType) : String :=
  let base := (ctx.rootComps.getLast?).getD ""
  let baseName := if base == "." then "app" else base
  baseName ++
    (match lang with
     | .c => "" | .cpp => "" | .go => "" | .rust => "-rust" | .nodejs => ".js"
     | .python => ".py" | .web => ".html" | .react => "-react" | .docker => "-docker")

/-- `path.join(dir, name)` for the single segments the executable search
uses (`'.'` joins to the directory itself). -/
def joinRel (dir : Path) (name : String) : Path :=
  if name == "." then dir else dir ++ [name]

/-- The conventional output locations of source lines 893 and 984. -/
def possibleDirs : List String := [".", "build", "bin", "out", "dist"]

/-- Whether an entry is a regular file with the executable bit the source
tests (`stat.isFile() && (stat.mode & fs.constants.X_OK)`). -/
def isExecFileEntry : Entry → Bool
  | .file _ d => d.exec
  | .dir _ _ _ => false

/-- The first executable-flagged regular file among a directory's children
(source lines 899-908): readdir failure is caught as an empty list. -/
def findExecChild (root : Entry) (p : Path) : Option String :=
  match lookupPath root p with
  | some (.dir _ true ch) => (ch.find? isExecFileEntry).map Entry.name
  | _ => none

/-- The root-directory variant that additionally requires the name to
contain no dot (source lines 917-933). -/
def findExecChildNoDot (root : Entry) (p : Path) : Option String :=
  match lookupPath root p with
  | some (.dir _ true ch) =>
    (ch.find? (fun c =>
      match c with
      | .file n d => d.exec && !(strContains n ".")
      | .dir _ _ _ => false)).map Entry.name
  | _ => none

/-- The conventional-locations loop of source lines 896-915. -/
def searchExecLoop (root : Entry) (mkDir : Path) : List String → Option Path
  | [] => none
  | d :: rest =>
    let searchPath := joinRel mkDir d
    if pathExists root searchPath then
      match findExecChild root searchPath with
      | some f => some (searchPath ++ [f])
      | none => searchExecLoop root mkDir rest
    else searchExecLoop root mkDir rest

/-- Search the conventional output locations under the Makefile's
directory for a built executable. -/
def searchExecutable (root : Entry) (mkDir : Path) : Option Path :=
  searchExecLoop root mkDir possibleDirs

/-- JS `Set` insertion order: append when absent. -/
def insertUnique (l : List Path) (x : Path) : List Path :=
  if l.contains x then l else l ++ [x]

/-- The conventional include directories of source line 1074. -/
def commonIncludes : List String := ["include", "inc", "headers", "src"]

/-- `getIncludeDirectories` (source lines 1062-1086). -/
def getIncludeDirectories (ctx : Ctx) (files : List Path) : String :=
  let dirs := files.foldl (fun acc f => insertUnique acc f.dropLast) [([] : Path)]
  let dirs := commonIncludes.foldl (fun acc d =>
    if pathExists ctx.root [d] then insertUnique acc [d] else acc) dirs
  String.intercalate " " (dirs.map (fun d => "-I" ++ quoteStr (renderAbs ctx d)))

/-- The fallback direct-compilation block of `compileC` (source lines
948-970). -/
def directCompileC (ctx : Ctx) (outputPath : Path) : Except String BuildResult :=
  let files := findFilesRecursive ctx.root [".c"]
  if files.isEmpty then .error "No .c files found in project directory"
  else
    let includeDirs := getIncludeDirectories ctx files
    let command := "gcc " ++
      String.intercalate " " (files.map (fun f => quoteStr (renderAbs ctx f))) ++
      " " ++ includeDirs ++ " -o " ++ quoteStr (renderAbs ctx outputPath) ++
      " -Wall -Wextra"
    match ctx.env.run command none with
    | .ok _ => .ok { success := true, output := renderAbs ctx outputPath,
                     executable := renderAbs ctx outputPath }
    | .error e => .error e

/-- `compileC` (source lines 882-971): prefer the Makefile; on a
successful `make`, search for a produced executable and copy it out; when
`make` fails or no executable is found, fall back to direct compilation. -/
def compileC (ctx : Ctx) (outputPath : Path) : Except String BuildResult :=
  match mkLookup ctx.root with
  | some mk =>
    let mkDir := mk.dropLast
    match ctx.env.run "make" (some mkDir) with
    | .ok _ =>
      let executable :=
        match searchExecutable ctx.root mkDir with
        | some p => some p
        | none => (findExecChildNoDot ctx.root mkDir).map (fun f => mkDir ++ [f])
      match executable with
      | some _ => .ok { success := true, output := renderAbs ctx outputPath,
                        executable := renderAbs ctx outputPath }
      | none => directCompileC ctx outputPath
    | .error _ => directCompileC ctx outputPath
  | none => directCompileC ctx outputPath

/-- The fallback direct-compilation block of `compileCpp` (source lines
1039-1059). -/
def directCompileCpp (ctx : Ctx) (outputPath : Path) : Except String BuildResult :=
  let files := findFilesRecursive ctx.root [".cpp", ".cc", ".cxx"]
  if files.isEmpty then .error "No C++ files found in project directory"
  else
    let includeDirs := getIncludeDirectories ctx files
    let command := "g++ " ++
      String.intercalate " " (files.map (fun f => quoteStr (renderAbs ctx f))) ++
      " " ++ includeDirs ++ " -o " ++ quoteStr (renderAbs ctx outputPath) ++
      " -Wall -Wextra -std=c++17"
    match ctx.env.run command none with
    | .ok _ => .ok { success := true, output := renderAbs ctx outputPath,
                     executable := renderAbs ctx outputPath }
    | .error e => .error e

/-- `compileCpp` (source lines 973-1060), same shape as `compileC`. -/
def compileCpp (ctx : Ctx) (outputPath : Path) : Except String BuildResult :=
  match mkLookup ctx.root with
  | some mk =>
    let mkDir := mk.dropLast
    match ctx.env.run "make" (some mkDir) with
    | .ok _ =>
      let executable :=
        match searchExecutable ctx.root mkDir with
        | some p => some p
        | none => (findExecChildNoDot ctx.root mkDir).map (fun f => mkDir ++ [f])
      match executable with
      | some _ => .ok { success := true, output := renderAbs ctx outputPath,
                        executable := renderAbs ctx outputPath }
      | none => directCompileCpp ctx outputPath
    | .error _ => directCompileCpp ctx outputPath
  | none => directCompileCpp ctx outputPath

/-- `compileGo` (source lines 1088-1096). -/
def compileGo (ctx : Ctx) (outputPath : Path) : Except String BuildResult :=
  match ctx.env.run ("go build -o " ++ quoteStr (renderAbs ctx outputPath)) (some []) with
  | .ok _ => .ok { success := true, output := renderAbs ctx outputPath,
                   executable := renderAbs ctx outputPath }
  | .error e => .error e

/-- Whether the path names an executable-flagged regular file (the
`statSync` probe of source lines 1111-1118). -/
def isExecFileAt (root : Entry) (p : Path) : Bool :=
  match lookupPath root p with
  | some (.file _ d) => d.exec
  | _ => false

/-- `compileRust` (source lines 1098-1130): release build, then the
conventional binary name under `target/release`, then any executable
found by scanning that directory with the empty-extension filter. -/
def compileRust (ctx : Ctx) (outputPath : Path) : Except String BuildResult :=
  match ctx.env.run "cargo build --release" (some []) with
  | .ok _ =>
    let cargoOutput : Path := ["target", "release", (ctx.rootComps.getLast?).getD ""]
    if pathExists ctx.root cargoOutput then
      .ok { success := true, output := renderAbs ctx outputPath,
            executable := renderAbs ctx outputPath }
    else
      let rustBinaries :=
        match lookupPath ctx.root ["target", "release"] with
        | some e => scanFiles e [""] ["target", "release"]
        | none => []
      match rustBinaries.find? (fun f => isExecFileAt ctx.root f) with
      | some _ => .ok { success := true, output := renderAbs ctx outputPath,
                        executable := renderAbs ctx outputPath }
      | none => .error "Could not find Rust build output"
  | .error e => .error e

/-! ## The Node.js entry-point heuristic (source lines 1150-1257) -/

/-- JS `||` on possibly-absent strings: an empty string is falsy. -/
def jsOrStr (a b : Option String) : Option String :=
  match a with
  | some s => if s == "" then b else some s
  | none => b

/-- JS truthiness of a possibly-absent string. -/
def isTruthy (o : Option String) : Bool :=
  match o with
  | some s => s != ""
  | none => false

/-- The ASCII white-space class of the regex `\\s`. -/
def isSpaceChar (c : Char) : Bool :=
  c = ' ' || c = '\t' || c = '\n' || c = '\r' || c = '\x0b' || c = '\x0c'

/-- After a literal `node`, demand at least one space then capture the
following non-space run (the `\\s+([^\\s]+)` part of the regex). -/
def nodeArgAfter (l : List Char) : Option String :=
  let ws := l.takeWhile isSpaceChar
  if ws.isEmpty then none
  else
    let tok := (l.drop ws.length).takeWhile (fun c => !(isSpaceChar c))
    if tok.isEmpty then none else some (String.mk tok)

/-- Leftmost match of the regex `node\\s+([^\\s]+)` over a script text. -/
def nodeArgSearch : List Char → Option String
  | [] => none
  | c :: rest =>
    if ['n', 'o', 'd', 'e'].isPrefixOf (c :: rest) then
      match nodeArgAfter ((c :: rest).drop 4) with
      | some arg => some arg
      | none => nodeArgSearch rest
    else nodeArgSearch rest

/-- `startScript.match(/node\\s+([^\\s]+)/)` capture (source line 1172). -/
def extractNodeArg (s : String) : Option String :=
  nodeArgSearch s.toList

/-- Split a string on `/`. -/
def splitOnSlash (s : String) : List String :=
  (s.toList.foldr
    (fun c acc =>
      match acc with
      | cur :: rest => if c = '/' then [] :: cur :: rest else (c :: cur) :: rest
      | [] => [[c]])
    [[]]).map String.mk

/-- `path.join(dir, relativeString)`: append the slash-separated segments,
resolving `.` and `..` as `path.join` normalization does. -/
def joinStrPath (base : Path) (s : String) : Path :=
  (splitOnSlash s).foldl
    (fun acc c =>
      if c == "" || c == "." then acc
      else if c == ".." then acc.dropLast
      else acc ++ [c]) base

/-- The prioritized conventional entry files of source lines 1188-1192. -/
def priorityFiles : List Path :=
  [["app.js"], ["server.js"], ["index.js"], ["main.js"],
   ["src", "app.js"], ["src", "server.js"], ["src", "index.js"], ["src", "main.js"],
   ["lib", "app.js"], ["lib", "server.js"], ["lib", "index.js"], ["lib", "main.js"]]

/-- The server-framework indicator substrings of source lines 1226-1230. -/
def serverIndicators : List String :=
  ["express", "http.createServer", "app.listen", "server.listen",
   "koa", "fastify", "hapi", "sails", "meteor", "listen(3000)",
   "listen(port)", "createServer"]

/-- The client-asset path substrings filtered out at source lines 1210-1218. -/
def clientAssetSubstrings : List String :=
  ["public/", "static/", "assets/", "css/", "js/"]

/-- The `serverFiles` filter of source lines 1210-1218: drop files whose
lower-cased relative path mentions a client-asset directory and files
whose absolute path mentions `node_modules`. -/
def serverFilesFilter (ctx : Ctx) (files : List Path) : List Path :=
  files.filter (fun f =>
    let rel := strToLower (String.intercalate "/" f)
    clientAssetSubstrings.all (fun sub => !(strContains rel sub)) &&
    !(strContains (renderAbs ctx f) "node_modules"))

/-- The server-indicator content scan of source lines 1222-1239: the first
file importing something and mentioning a server framework; unreadable
files are skipped. -/
def findServerFile (ctx : Ctx) : List Path → Option Path
  | [] => none
  | f :: rest =>
    match readFileE ctx.root f with
    | .ok content =>
      if strContains content "require(" || strContains content "import" then
        if serverIndicators.any (fun ind => strContains content ind) then some f
        else findServerFile ctx rest
      else findServerFile ctx rest
    | .error _ => findServerFile ctx rest

/-- The fallback chain of `findNodeMainFile` after the `package.json`
attempts (source lines 1187-1256). -/
def nodeMainFallback (ctx : Ctx) : Except String Path :=
  match priorityFiles.find? (fun f => pathExists ctx.root f) with
  | some f => .ok f
  | none =>
    let allJsFiles := findFilesRecursive ctx.root [".js", ".mjs", ".cjs"]
    if allJsFiles.isEmpty then .error "No JavaScript files found in project directory"
    else
      let serverFiles := serverFilesFilter ctx allJsFiles
      if !serverFiles.isEmpty then
        match findServerFile ctx serverFiles with
        | some f => .ok f
        | none => .ok (serverFiles.headD [])
      else
        let rootJsFiles := allJsFiles.filter (fun f => f.dropLast == ([] : Path))
        if !rootJsFiles.isEmpty then .ok (rootJsFiles.headD [])
        else .ok (allJsFiles.headD [])

/-- The start/dev-script attempt of `findNodeMainFile` (source lines
1166-1181). -/
def nodeMainScripts (ctx : Ctx) (pj : Path) (pkg : Pkg) : Except String Path :=
  match pkg.scripts with
  | some scr =>
    let startScript := jsOrStr scr.start scr.dev
    if isTruthy startScript then
      match extractNodeArg ((startScript).getD "") with
      | some arg =>
        let mainFromScript := joinStrPath pj.dropLast arg
        if pathExists ctx.root mainFromScript then .ok mainFromScript
        else nodeMainFallback ctx
      | none => nodeMainFallback ctx
    else nodeMainFallback ctx
  | none => nodeMainFallback ctx

/-- `findNodeMainFile` (source lines 1150-1257): `package.json` main
field, then start/dev script, then the conventional and heuristic
fallbacks; a failed `readJson` is caught and falls through to the file
search. -/
def findNodeMainFile (ctx : Ctx) : Except String Path :=
  match findFileRecursive ctx.root "package.json" [] with
  | some pj =>
    match readJsonE ctx.root pj with
    | .error _ => nodeMainFallback ctx
    | .ok pkg =>
      if isTruthy pkg.main then
        let mainFromPkg := joinStrPath pj.dropLast ((pkg.main).getD "")
        if pathExists ctx.root mainFromPkg then .ok mainFromPkg
        else nodeMainScripts ctx pj pkg
      else nodeMainScripts ctx pj pkg
  | none => nodeMainFallback ctx

/-- `prepareNode` (source lines 1132-1148). -/
def prepareNode (ctx : Ctx) : Except String BuildResult :=
  let afterInstall : Except String Unit :=
    match findFileRecursive ctx.root "package.json" [] with
    | some pj => ctx.env.run "npm install" (some pj.dropLast)
    | none => .ok ()
  match afterInstall with
  | .ok _ =>
    match findNodeMainFile ctx with
    | .ok mainFile =>
      .ok { success := true, output := renderAbs ctx mainFile,
            executable := "node " ++ quoteStr (renderAbs ctx mainFile),
            runtime := some "node" }
    | .error e => .error e
  | .error e => .error e

/-! ## The remaining builders -/

/-- The prioritized entry-name fragments of source line 1344. -/
def priorityNames : List String := ["main", "index", "app", "server"]

/-- `path.basename` of a relative path. -/
def basenameOf (f : Path) : String := (f.getLast?).getD ""

/-- `findMainFile` (source lines 1336-1356). -/
def findMainFile (ctx : Ctx) (extStr : String) : Except String Path :=
  let files := findFilesRecursive ctx.root [extStr]
  if files.isEmpty then .error ("No " ++ extStr ++ " files found")
  else
    match priorityNames.findSome? (fun nm =>
      files.find? (fun f => strContains (strToLower (basenameOf f)) nm)) with
    | some f => .ok f
    | none => .ok (files.headD [])

/-- `preparePython` (source lines 1259-1274). -/
def preparePython (ctx : Ctx) : Except String BuildResult :=
  let afterInstall : Except String Unit :=
    match findFileRecursive ctx.root "requirements.txt" [] with
    | some req => ctx.env.run "pip3 install -r requirements.txt" (some req.dropLast)
    | none => .ok ()
  match afterInstall with
  | .ok _ =>
    match findMainFile ctx ".py" with
    | .ok mainFile =>
      .ok { success := true, output := renderAbs ctx mainFile,
            executable := "python3 " ++ quoteStr (renderAbs ctx mainFile),
            runtime := some "python3" }
    | .error e => .error e
  | .error e => .error e

/-- `prepareWeb` (source lines 1276-1297). -/
def prepareWeb (ctx : Ctx) : Except String BuildResult :=
  let htmlFiles := findFilesRecursive ctx.root [".html"]
  let mainHtml :=
    match htmlFiles.find? (fun f =>
      strContains (strToLower (basenameOf f)) "index" ||
      strContains (strToLower (basenameOf f)) "main") with
    | some f => some f
    | none => htmlFiles.head?
  match mainHtml with
  | none => .error "No HTML files found in web project"
  | some f =>
    .ok { success := true, output := renderAbs ctx f,
          executable := "open " ++ quoteStr (renderAbs ctx f),
          runtime := some "browser" }

/-- `prepareReact` (source lines 1299-1316). -/
def prepareReact (ctx : Ctx) : Except String BuildResult :=
  let afterInstall : Except String Unit :=
    match findFileRecursive ctx.root "package.json" [] with
    | some pj => ctx.env.run "npm install" (some pj.dropLast)
    | none => .ok ()
  match afterInstall with
  | .ok _ =>
    .ok { success := true, output := renderAbs ctx [],
          executable := "npm run dev", runtime := some "npm" }
  | .error e => .error e

/-- `prepareDocker` (source lines 1318-1334). -/
def prepareDocker (ctx : Ctx) : Except String BuildResult :=
  match findFileRecursive ctx.root "Dockerfile" [] with
  | none => .error "No Dockerfile found"
  | some _ =>
    .ok { success := true, output := renderAbs ctx [],
          executable := "docker build -t myapp . && docker run -p 3000:3000 myapp",
          runtime := some "docker" }

/-- The `switch` of `compile` (source lines 855-876). -/
def compileBody (ctx : Ctx) (lang : ProjectType) (outputPath : Path) :
    Except String BuildResult :=
  match lang with
  | .c => compileC ctx outputPath
  | .cpp => compileCpp ctx outputPath
  | .go => compileGo ctx outputPath
  | .rust => compileRust ctx outputPath
  | .nodejs => prepareNode ctx
  | .python => preparePython ctx
  | .web => prepareWeb ctx
  | .react => prepareReact ctx
  | .docker => prepareDocker ctx

/-- `compile` (source lines 849-880): the switch wrapped in the
try/catch that converts any thrown error to a failed `BuildResult`. -/
def compile (ctx : Ctx) (lang : ProjectType) (buildDirRel : Path) : BuildResult :=
  let outputName := getOutputName ctx lang
  let outputPath := buildDirRel ++ [outputName]
  match compileBody ctx lang outputPath with
  | .ok r => r
  | .error msg => { success := false, error := some msg }

/-! ## `compileProject` as an event trace, and `clean` -/

/-- The externally observable steps of one `compileProject` run. -/
inductive Step where
  | analyze : Step
  | detect (result : Option ProjectType) : Step
  | ensureDeps (lang : ProjectType) : Step
  | build (lang : ProjectType) : Step
  | report (success : Bool) : Step
deriving DecidableEq

/-- `compileProject` (source lines 484-531) as the sequence of steps it
performs: analyze, detect (abort when none), the dependency check unless
the type is web/react/docker (its thrown failure is caught by the outer
handler, aborting before the build), then build and report. -/
def compileProjectTrace (ctx : Ctx) (buildDirRel : Path) : List Step :=
  match detectProjectType ctx.root with
  | none => [.analyze, .detect none]
  | some t =>
    if t != .web && t != .react && t != .docker then
      match ctx.env.deps t with
      | .ok _ =>
        [.analyze, .detect (some t), .ensureDeps t, .build t,
         .report (compile ctx t buildDirRel).success]
      | .error _ => [.analyze, .detect (some t), .ensureDeps t]
    else
      [.analyze, .detect (some t), .build t,
       .report (compile ctx t buildDirRel).success]

/-- Remove an immediate child by name (`fs.remove` of a root child). -/
def removeChild (e : Entry) (n : String) : Entry :=
  match e with
  | .file _ _ => e
  | .dir nm r ch => .dir nm r (ch.filter (fun c => c.name != n))

/-- The per-ecosystem build/cache directories of source line 1536. -/
def cleanCommonDirs : List String :=
  ["target", "dist", "node_modules", "__pycache__", ".pytest_cache"]

/-- What one `clean` run did: the tree afterwards, whether the canonical
build directory existed and was removed (`false` means the
does-not-exist message was printed instead), which common directories
were removed, and whether a found Makefile's `make clean` succeeded
(`none` when no Makefile; its failure is swallowed, source lines
1549-1554). -/
structure CleanResult where
  fs : Entry
  removedBuild : Bool
  removedCommon : List String
  makeCleanOk : Option Bool

/-- One iteration of the common-directory removal loop of `clean`
(source lines 1537-1543). -/
def cleanStep (acc : Entry × List String) (d : String) : Entry × List String :=
  if pathExists acc.1 [d] then (removeChild acc.1 d, acc.2 ++ [d]) else acc

/-- `clean` (source lines 1524-1556). -/
def clean (env : Env) (root : Entry) : CleanResult :=
  let step1 : Entry × Bool :=
    if pathExists root ["build"] then (removeChild root "build", true) else (root, false)
  let step2 : Entry × List String :=
    cleanCommonDirs.foldl cleanStep (step1.1, [])
  let makeCleanOk : Option Bool :=
    match mkLookup step2.1 with
    | some mk =>
      match env.run "make clean" (some mk.dropLast) with
      | .ok _ => some true
      | .error _ => some false
    | none => none
  { fs := step2.1, removedBuild := step1.2, removedCommon := step2.2,
    makeCleanOk := makeCleanOk }

/-- An environment in which every external command succeeds. -/
def envOk : Env := { run := fun _ _ => .ok (), deps := fun _ => .ok () }

/-! ## Helper lemmas -/

theorem renderAbs_ne_empty (ctx : Ctx) (p : Path) : renderAbs ctx p ≠ "" := by
  unfold renderAbs
  intro h
  have h2 := congrArg String.data h
  simp [String.append] at h2

theorem firstFoundMarker_of_unique (root : Entry) (table : List (String × ProjectType))
    (m : String) (t : ProjectType)
    (hmem : (m, t) ∈ table)
    (hpresent : (findFileRecursive root m []).isSome = true)
    (habsent : ∀ p ∈ table, p.1 ≠ m → (findFileRecursive root p.1 []).isSome = false)
    (huniq : ∀ p ∈ table, p.1 = m → p.2 = t) :
    firstFoundMarker root table = some t := by
  induction table with
  | nil => cases hmem
  | cons hd tl ih =>
    unfold firstFoundMarker
    rw [List.findSome?_cons]
    by_cases hm : hd.1 = m
    · rw [hm, hpresent]
      simp [huniq hd (List.mem_cons_self hd tl) hm]
    · rw [habsent hd (List.mem_cons_self hd tl) hm]
      simp only [Bool.false_eq_true, if_false]
      have hmem' : (m, t) ∈ tl := by
        rcases List.mem_cons.1 hmem with h | h
        · exact absurd (congrArg Prod.fst h.symm) hm
        · exact h
      exact ih hmem' (fun p hp => habsent p (List.mem_cons_of_mem hd hp))
        (fun p hp => huniq p (List.mem_cons_of_mem hd hp))

theorem firstFoundMarker_of_absent (root : Entry) (table : List (String × ProjectType))
    (habsent : ∀ p ∈ table, (findFileRecursive root p.1 []).isSome = false) :
    firstFoundMarker root table = none := by
  induction table with
  | nil => rfl
  | cons hd tl ih =>
    unfold firstFoundMarker
    rw [List.findSome?_cons, habsent hd (List.mem_cons_self hd tl)]
    simp only [Bool.false_eq_true, if_false]
    exact ih (fun p hp => habsent p (List.mem_cons_of_mem hd hp))

theorem detectCommonDirsStep_ok (root : Entry) :
    ∃ r, detectCommonDirsStep root = .ok r := ⟨_, rfl⟩

theorem detectByCountStep_ok (root : Entry) :
    ∃ r, detectByCountStep root = .ok r := by
  unfold detectByCountStep
  dsimp only
  split
  · exact ⟨_, rfl⟩
  · exact detectCommonDirsStep_ok root

theorem detectBuildFilesStep_ok (root : Entry) :
    ∃ r, detectBuildFilesStep root = .ok r := by
  unfold detectBuildFilesStep
  split
  · exact ⟨_, rfl⟩
  · exact detectByCountStep_ok root

theorem detectMakefileStep_ok (root : Entry) :
    ∃ r, detectMakefileStep root = .ok r := by
  unfold detectMakefileStep
  split
  · dsimp only
    split
    · exact ⟨_, rfl⟩
    · split
      · exact ⟨_, rfl⟩
      · split
        · split
          · exact ⟨_, rfl⟩
          · exact ⟨_, rfl⟩
        · exact detectBuildFilesStep_ok root
  · exact detectBuildFilesStep_ok root

theorem detectProjectTypeE_ok (root : Entry) :
    ∃ r, detectProjectTypeE root = .ok r := by
  unfold detectProjectTypeE
  split
  · exact ⟨_, rfl⟩
  · dsimp only
    split
    · split
      · exact ⟨_, rfl⟩
      · split
        · exact ⟨_, rfl⟩
        · exact detectMakefileStep_ok root
    · exact detectMakefileStep_ok root

/-- C10: `detectProjectType` is total over its error cases: its body never
lets an exception escape (every fallible operation inside the scanners and
file reads is caught where the source catches it), so on every input tree
-- including trees with unreadable directories and files anywhere -- the
outer try/catch receives a normal value and the function returns that
`Option ProjectType` value, never propagating an exception. -/
theorem detectProjectType_total (root : Entry) :
    detectProjectTypeE root = .ok (detectProjectType root) := by
  obtain ⟨r, hr⟩ := detectProjectTypeE_ok root
  rw [detectProjectType, hr]

/-- C1: when exactly one config marker of the fixed table is present
anywhere in the tree (as `findFileRecursive` finds it), `detectProjectType`
returns the mapped type immediately, whatever other files the tree holds:
the config rule is evaluated first and short-circuits the later rules. -/
theorem detect_single_config_marker (root : Entry) (m : String) (t : ProjectType)
    (hmem : (m, t) ∈ configFiles)
    (hpresent : (findFileRecursive root m []).isSome = true)
    (habsent : ∀ p ∈ configFiles, p.1 ≠ m → (findFileRecursive root p.1 []).isSome = false) :
    detectProjectType root = some t := by
  have huniq : ∀ p ∈ configFiles, p.1 = m → p.2 = t := by
    fin_cases hmem <;> decide
  have h := firstFoundMarker_of_unique root configFiles m t hmem hpresent habsent huniq
  rw [detectProjectType, detectProjectTypeE, h]

/-- A tree holding exactly one config marker (`go.mod`) among unrelated
source files of other families. -/
def c1Tree : Entry :=
  .dir "proj" true
    [plainFile "go.mod" "module demo", plainFile "a.py", plainFile "b.rs",
     .dir "src" true [plainFile "c.cpp", plainFile "d.html"]]

/-- Witness for C1 at a concrete tree: the lone `go.mod` wins regardless
of the Python/Rust/C++/HTML files around it. -/
theorem detect_single_config_marker_witness : detectProjectType c1Tree = some ProjectType.go :=
  detect_single_config_marker c1Tree "go.mod" ProjectType.go (by decide) (by decide)
    (by decide)

theorem detectE_reaches_makefile (root : Entry)
    (hcfg : ∀ p ∈ configFiles, (findFileRecursive root p.1 []).isSome = false)
    (hhtml : findFilesRecursive root [".html"] = []) :
    detectProjectTypeE root = detectMakefileStep root := by
  rw [detectProjectTypeE, firstFoundMarker_of_absent root configFiles hcfg]
  dsimp only
  rw [hhtml]
  rfl

/-- A tree with a Makefile that names neither `g++` nor `.cpp`, one `.c`
file and one `.cpp` file. -/
def c3Tree : Entry :=
  .dir "proj" true
    [plainFile "Makefile" "all:\n\tcc -o app main.c", plainFile "main.c",
     plainFile "other.cpp"]

/-- Counterexample to C3 as stated: on `c3Tree` the Makefile is found,
both source families exist, the Makefile content contains neither `g++`
nor `.cpp`, yet `detectProjectType` classifies the project as C, not C++:
the no-hint tie-break biases toward C. -/
theorem detect_makefile_tie_no_hint_counterexample :
    (mkLookup c3Tree).isSome = true ∧
    (findFilesRecursive c3Tree [".c"]).isEmpty = false ∧
    (findFilesRecursive c3Tree [".cpp", ".cc", ".cxx"]).isEmpty = false ∧
    strContains (readFileCaught c3Tree ["Makefile"]) "g++" = false ∧
    strContains (readFileCaught c3Tree ["Makefile"]) ".cpp" = false ∧
    detectProjectType c3Tree = some ProjectType.c ∧
    detectProjectType c3Tree ≠ some ProjectType.cpp := by decide

/-- C3 (amended): for every tree in which no config marker is found, no
HTML file exists, a Makefile is found, both `.c`-family and `.cpp`-family
sources exist, and the Makefile content contains neither the C++ compiler
name nor the C++ extension as a substring, `detectProjectType` classifies
the project as C (the no-hint tie-break biases toward C, not C++). -/
theorem detect_makefile_tie_no_hint (root : Entry) (mk : Path)
    (hcfg : ∀ p ∈ configFiles, (findFileRecursive root p.1 []).isSome = false)
    (hhtml : findFilesRecursive root [".html"] = [])
    (hmk : mkLookup root = some mk)
    (hc : (findFilesRecursive root [".c"]).isEmpty = false)
    (hcpp : (findFilesRecursive root [".cpp", ".cc", ".cxx"]).isEmpty = false)
    (hnog : strContains (readFileCaught root mk) "g++" = false)
    (hnoext : strContains (readFileCaught root mk) ".cpp" = false) :
    detectProjectType root = some ProjectType.c := by
  rw [detectProjectType, detectE_reaches_makefile root hcfg hhtml,
    detectMakefileStep, hmk]
  dsimp only
  rw [hc, hcpp, hnog, hnoext]
  rfl

/-- Witness for the amended C3 at `c3Tree`. -/
theorem detect_makefile_tie_no_hint_witness : detectProjectType c3Tree = some ProjectType.c :=
  detect_makefile_tie_no_hint c3Tree ["Makefile"] (by decide) (by decide) (by decide)
    (by decide) (by decide) (by decide) (by decide)

/-- A tree with both families, a Makefile naming `g++`, and additionally a
`go.mod` marker elsewhere in the tree. -/
def c6Tree : Entry :=
  .dir "proj" true
    [plainFile "go.mod" "module demo", plainFile "Makefile" "CXX=g++",
     plainFile "main.c", plainFile "other.cpp"]

/-- Counterexample to C6 as stated: `c6Tree` contains both `.c` and `.cpp`
sources and a Makefile whose content contains `g++`, yet
`detectProjectType` returns Go, because the config-marker rule (here a
`go.mod` elsewhere in the tree) fires before the Makefile rule. -/
theorem detect_makefile_gpp_hint_counterexample :
    (mkLookup c6Tree).isSome = true ∧
    (findFilesRecursive c6Tree [".c"]).isEmpty = false ∧
    (findFilesRecursive c6Tree [".cpp", ".cc", ".cxx"]).isEmpty = false ∧
    strContains (readFileCaught c6Tree ["Makefile"]) "g++" = true ∧
    detectProjectType c6Tree = some ProjectType.go ∧
    detectProjectType c6Tree ≠ some ProjectType.cpp := by decide

/-- C6 (amended): for every tree in which no config marker is found and no
HTML file exists, containing both `.c` and `.cpp` source files and a found
Makefile whose content contains `g++` as a literal substring,
`detectProjectType` classifies the project as C++, not C. -/
theorem detect_makefile_gpp_hint (root : Entry) (mk : Path)
    (hcfg : ∀ p ∈ configFiles, (findFileRecursive root p.1 []).isSome = false)
    (hhtml : findFilesRecursive root [".html"] = [])
    (hmk : mkLookup root = some mk)
    (hc : (findFilesRecursive root [".c"]).isEmpty = false)
    (hcpp : (findFilesRecursive root [".cpp", ".cc", ".cxx"]).isEmpty = false)
    (hg : strContains (readFileCaught root mk) "g++" = true) :
    detectProjectType root = some ProjectType.cpp := by
  rw [detectProjectType, detectE_reaches_makefile root hcfg hhtml,
    detectMakefileStep, hmk]
  dsimp only
  rw [hc, hcpp, hg]
  rfl

/-- A tree like `c6Tree` but without the interfering `go.mod`. -/
def c6bTree : Entry :=
  .dir "proj" true
    [plainFile "Makefile" "CXX=g++", plainFile "main.c", plainFile "other.cpp"]

/-- Witness for the amended C6 at `c6bTree`. -/
theorem detect_makefile_gpp_hint_witness : detectProjectType c6bTree = some ProjectType.cpp :=
  detect_makefile_gpp_hint c6bTree ["Makefile"] (by decide) (by decide) (by decide)
    (by decide) (by decide) (by decide)

/-- A Node.js project: `package.json` marker plus an entry file. -/
def c4Tree : Entry :=
  .dir "proj" true [plainFile "package.json" "\x7b\x7d", plainFile "index.js"]

/-- The `c4Tree` project with an all-succeeding environment. -/
def c4Ctx : Ctx := { rootComps := ["home", "u", "proj"], root := c4Tree, env := envOk }

/-- Counterexample to C4 as stated: Node.js is one of the types the claim
says bypasses the toolchain check, yet on a detected Node.js project the
`ensureDependencies` step does occur in the `compileProject` run: only
web, react and docker are skipped by the guard. -/
theorem ensure_deps_skip_counterexample :
    detectProjectType c4Tree = some ProjectType.nodejs ∧
    Step.ensureDeps ProjectType.nodejs ∈ compileProjectTrace c4Ctx ["build"] := by decide

/-- C4 (amended): for a detected project type, `compileProject` skips the
`ensureDependencies` toolchain check exactly for the web, react and docker
types; the interpreted Node.js and Python types do go through the check
before the build step. -/
theorem ensure_deps_skip_condition (ctx : Ctx) (b : Path) (t : ProjectType)
    (hdet : detectProjectType ctx.root = some t) :
    (Step.ensureDeps t ∈ compileProjectTrace ctx b) ↔
      (t ≠ ProjectType.web ∧ t ≠ ProjectType.react ∧ t ≠ ProjectType.docker) := by
  rw [compileProjectTrace, hdet]
  dsimp only
  by_cases h : t ≠ ProjectType.web ∧ t ≠ ProjectType.react ∧ t ≠ ProjectType.docker
  · have hb : (t != ProjectType.web && t != ProjectType.react && t != ProjectType.docker)
        = true := by
      simp only [Bool.and_eq_true, bne_iff_ne]
      exact ⟨⟨h.1, h.2.1⟩, h.2.2⟩
    rw [hb]
    simp only [if_true]
    cases ctx.env.deps t <;> simp [h]
  · have hb : (t != ProjectType.web && t != ProjectType.react && t != ProjectType.docker)
        = false := by
      simp only [Bool.and_eq_false_iff, bne_eq_false_iff_eq]
      by_contra hcon
      push_neg at hcon
      rcases hcon with ⟨⟨h1, h2⟩, h3⟩
      exact h ⟨h1, h2, h3⟩
    rw [hb]
    simp only [Bool.false_eq_true, if_false]
    simp [h]

/-- A static-web project with an all-succeeding environment. -/
def c4wCtx : Ctx :=
  { rootComps := ["home", "u", "proj"],
    root := .dir "proj" true [plainFile "index.html", plainFile "style.css"],
    env := envOk }

/-- Witness for the amended C4 at a concrete detected web project: the
dependency check step never appears in its trace. -/
theorem ensure_deps_skip_condition_witness :
    Step.ensureDeps ProjectType.web ∉ compileProjectTrace c4wCtx ["build"] :=
  fun h =>
    absurd ((ensure_deps_skip_condition c4wCtx ["build"] ProjectType.web (by decide)).mp h)
      (by decide)

theorem dropLast_cons_ne_nil {A : Type} (a : A) {l : List A} (h : l ≠ []) :
    (a :: l).dropLast = a :: l.dropLast := by
  cases l with
  | nil => exact absurd rfl h
  | cons b m => rfl

theorem scanFilesList_shape_of (k : Nat)
    (IH : ∀ (e : Entry), sizeOf e ≤ k → ∀ (exts : List String) (cur p : Path),
      p ∈ scanFiles e exts cur →
      ∃ s, s ≠ [] ∧ p = cur ++ s ∧
        ∀ d ∈ s.dropLast, startsWithDot d = false ∧ filesExcludedDirs.contains d = false)
    (l : List Entry) (hl : ∀ c ∈ l, sizeOf c ≤ k) (exts : List String) (cur p : Path)
    (hp : p ∈ scanFilesList l exts cur) :
    ∃ s, s ≠ [] ∧ p = cur ++ s ∧
      ∀ d ∈ s.dropLast, startsWithDot d = false ∧ filesExcludedDirs.contains d = false := by
  induction l with
  | nil => simp [scanFilesList] at hp
  | cons c rest ih =>
    rw [scanFilesList.eq_def] at hp
    dsimp only at hp
    rcases List.mem_append.1 hp with h | h
    · cases c with
      | dir n r2 ch2 =>
        dsimp only at h
        split at h
        · rename_i hguard
          obtain ⟨s2, hne, hps, hall⟩ :=
            IH (.dir n r2 ch2) (hl _ (List.mem_cons_self _ _)) exts (cur ++ [n]) p h
          refine ⟨n :: s2, by simp, by simpa [List.append_assoc] using hps, ?_⟩
          intro d hd
          rw [dropLast_cons_ne_nil n hne] at hd
          rcases List.mem_cons.1 hd with rfl | hd2
          · simp only [Bool.and_eq_true, Bool.not_eq_true'] at hguard
            exact ⟨hguard.1, hguard.2⟩
          · exact hall d hd2
        · simp at h
      | file n d =>
        dsimp only at h
        split at h
        · have hpe : p = cur ++ [n] := by simpa using h
          subst hpe
          exact ⟨[n], by simp, rfl, by simp⟩
        · simp at h
    · exact ih (fun c2 hc2 => hl c2 (List.mem_cons_of_mem c hc2)) h

theorem scanFiles_path_shape (k : Nat) :
    ∀ (e : Entry), sizeOf e ≤ k → ∀ (exts : List String) (cur p : Path),
      p ∈ scanFiles e exts cur →
      ∃ s, s ≠ [] ∧ p = cur ++ s ∧
        ∀ d ∈ s.dropLast, startsWithDot d = false ∧ filesExcludedDirs.contains d = false := by
  induction k with
  | zero =>
    intro e he
    exfalso
    cases e <;> simp at he
  | succ k ihk =>
    intro e he exts cur p hp
    cases e with
    | file n d => simp [scanFiles] at hp
    | dir n r ch =>
      rw [scanFiles] at hp
      split at hp
      · refine scanFilesList_shape_of k ihk ch ?_ exts cur p hp
        intro c hc
        have h1 := List.sizeOf_lt_of_mem hc
        simp at he
        omega
      · simp at hp

/-- C7: every path `findFilesRecursive` returns lies outside hidden and
excluded directories: no component above the file is a name with a
leading dot or a member of the fixed exclusion set
`node_modules`/`build`/`target`/`dist`/`obj`; consequently a matching
file placed only inside such a directory is never reported. -/
theorem findFilesRecursive_excludes (root : Entry) (exts : List String) (p : Path)
    (hp : p ∈ findFilesRecursive root exts) :
    ∀ d ∈ p.dropLast, startsWithDot d = false ∧ filesExcludedDirs.contains d = false := by
  obtain ⟨s, _, hps, hall⟩ :=
    scanFiles_path_shape (sizeOf root) root (Nat.le_refl _) exts [] p hp
  rw [hps, List.nil_append]
  exact hall

/-- A tree whose only `.c` match outside excluded directories is `ok.c`;
`node_modules` and a hidden directory also hold `.c` files. -/
def c7Tree : Entry :=
  .dir "proj" true
    [.dir "node_modules" true [plainFile "inner.c"],
     .dir ".cache" true [plainFile "hidden.c"], plainFile "ok.c"]

/-- The same tree without the visible file: only excluded directories
contain matches. -/
def c7TreeOnlyExcluded : Entry :=
  .dir "proj" true
    [.dir "node_modules" true [plainFile "inner.c"],
     .dir ".cache" true [plainFile "hidden.c"]]

/-- Witness for C7 at a concrete tree, plus the by-construction check of
the claim: when the only matching files sit inside excluded directories,
the result set is empty. -/
theorem findFilesRecursive_excludes_witness :
    (["ok.c"] : Path) ∈ findFilesRecursive c7Tree [".c"] ∧
    (∀ d ∈ (["ok.c"] : Path).dropLast,
      startsWithDot d = false ∧ filesExcludedDirs.contains d = false) ∧
    findFilesRecursive c7TreeOnlyExcluded [".c"] = [] :=
  ⟨by decide, findFilesRecursive_excludes c7Tree [".c"] ["ok.c"] (by decide), by decide⟩

theorem findFileRecursiveList_shape_of (k : Nat)
    (IH : ∀ (e : Entry), sizeOf e ≤ k → ∀ (fn : String) (cur p : Path),
      findFileRecursive e fn cur = some p →
      ∃ s, s ≠ [] ∧ p = cur ++ s ∧
        ∀ d ∈ s.dropLast, startsWithDot d = false ∧ fileExcludedDirs.contains d = false)
    (l : List Entry) (hl : ∀ c ∈ l, sizeOf c ≤ k) (fn : String) (cur p : Path)
    (hp : findFileRecursiveList l fn cur = some p) :
    ∃ s, s ≠ [] ∧ p = cur ++ s ∧
      ∀ d ∈ s.dropLast, startsWithDot d = false ∧ fileExcludedDirs.contains d = false := by
  induction l with
  | nil => simp [findFileRecursiveList] at hp
  | cons c rest ih =>
    rw [findFileRecursiveList.eq_def] at hp
    dsimp only at hp
    split at hp
    · rename_i hguard
      split at hp
      · rename_i q hq
        have hpq : q = p := by simpa using hp
        subst hpq
        obtain ⟨s2, hne, hps, hall⟩ :=
          IH c (hl c (List.mem_cons_self _ _)) fn (cur ++ [c.name]) q hq
        refine ⟨c.name :: s2, by simp, by simpa [List.append_assoc] using hps, ?_⟩
        intro d hd
        rw [dropLast_cons_ne_nil c.name hne] at hd
        rcases List.mem_cons.1 hd with rfl | hd2
        · simp only [Bool.and_eq_true, Bool.not_eq_true'] at hguard
          exact ⟨hguard.1.2, hguard.2⟩
        · exact hall d hd2
      · exact ih (fun c2 hc2 => hl c2 (List.mem_cons_of_mem c hc2)) hp
    · exact ih (fun c2 hc2 => hl c2 (List.mem_cons_of_mem c hc2)) hp

theorem findFileRec_path_shape (k : Nat) :
    ∀ (e : Entry), sizeOf e ≤ k → ∀ (fn : String) (cur p : Path),
      findFileRecursive e fn cur = some p →
      ∃ s, s ≠ [] ∧ p = cur ++ s ∧
        ∀ d ∈ s.dropLast, startsWithDot d = false ∧ fileExcludedDirs.contains d = false := by
  induction k with
  | zero =>
    intro e he
    exfalso
    cases e <;> simp at he
  | succ k ihk =>
    intro e he fn cur p hp
    cases e with
    | file n d => simp [findFileRecursive] at hp
    | dir n r ch =>
      rw [findFileRecursive] at hp
      split at hp
      · split at hp
        · have hpe : cur ++ [fn] = p := by simpa using hp
          subst hpe
          exact ⟨[fn], by simp, rfl, by simp⟩
        · refine findFileRecursiveList_shape_of k ihk ch ?_ fn cur p hp
          intro c hc
          have h1 := List.sizeOf_lt_of_mem hc
          simp at he
          omega
      · simp at hp

/-- A `go.mod` hidden inside an `obj` directory: `findFilesRecursive`
would skip `obj`, but `findFileRecursive` descends into it. -/
def c8Tree : Entry :=
  .dir "proj" true [.dir "obj" true [plainFile "go.mod" "module demo"]]

/-- Counterexample to C8 as stated: `findFileRecursive` does not apply the
same exclusion set as `findFilesRecursive`: it returns a path lying under
an `obj` directory, although `obj` is in the `findFilesRecursive`
exclusion set. -/
theorem findFileRecursive_same_exclusions_counterexample :
    findFileRecursive c8Tree "go.mod" [] = some ["obj", "go.mod"] ∧
    "obj" ∈ (["obj", "go.mod"] : Path).dropLast ∧
    filesExcludedDirs.contains "obj" = true := by decide

/-- C8 (amended): `findFileRecursive` never returns a path lying under a
hidden directory or under `node_modules`/`build`/`target`/`dist` -- its
own exclusion set, which unlike the `findFilesRecursive` set does not
contain `obj` -- and it checks the current directory's immediate children
before descending into subdirectories: a name present among the readable
root's children is returned directly. -/
theorem findFileRecursive_traversal (root : Entry) (fileName : String) :
    (∀ p, findFileRecursive root fileName [] = some p →
      ∀ d ∈ p.dropLast, startsWithDot d = false ∧ fileExcludedDirs.contains d = false) ∧
    ((childNamesD root).contains fileName = true →
      findFileRecursive root fileName [] = some [fileName]) := by
  constructor
  · intro p hp
    obtain ⟨s, _, hps, hall⟩ :=
      findFileRec_path_shape (sizeOf root) root (Nat.le_refl _) fileName [] p hp
    rw [hps, List.nil_append]
    exact hall
  · intro h
    cases root with
    | file n d => simp [childNamesD] at h
    | dir n r ch =>
      cases r with
      | false => simp [childNamesD] at h
      | true =>
        rw [findFileRecursive]
        simp only [childNamesD] at h
        simp only [h, eq_self_iff_true, if_true, List.nil_append]

/-- A tree with `conf.cfg` both at the root and deeper inside an earlier
subdirectory. -/
def c8wTree : Entry :=
  .dir "proj" true
    [.dir "a" true [plainFile "conf.cfg"], plainFile "conf.cfg"]

/-- Witness for the amended C8: the root-level `conf.cfg` is returned even
though a same-named file sits in a subdirectory. -/
theorem findFileRecursive_traversal_witness :
    findFileRecursive c8wTree "conf.cfg" [] = some ["conf.cfg"] :=
  (findFileRecursive_traversal c8wTree "conf.cfg").2 (by decide)

theorem directCompileC_ok (ctx : Ctx) (op : Path) (r : BuildResult)
    (h : directCompileC ctx op = .ok r) : r.success = true ∧ r.output ≠ "" := by
  unfold directCompileC at h
  dsimp only at h
  repeat' split at h
  all_goals
    first
    | (injection h with h2; subst h2; exact ⟨rfl, renderAbs_ne_empty _ _⟩)
    | cases h

theorem directCompileCpp_ok (ctx : Ctx) (op : Path) (r : BuildResult)
    (h : directCompileCpp ctx op = .ok r) : r.success = true ∧ r.output ≠ "" := by
  unfold directCompileCpp at h
  dsimp only at h
  repeat' split at h
  all_goals
    first
    | (injection h with h2; subst h2; exact ⟨rfl, renderAbs_ne_empty _ _⟩)
    | cases h

theorem compileC_ok (ctx : Ctx) (op : Path) (r : BuildResult)
    (h : compileC ctx op = .ok r) : r.success = true ∧ r.output ≠ "" := by
  unfold compileC at h
  dsimp only at h
  repeat' split at h
  all_goals
    first
    | (injection h with h2; subst h2; exact ⟨rfl, renderAbs_ne_empty _ _⟩)
    | exact directCompileC_ok ctx op r h

theorem compileCpp_ok (ctx : Ctx) (op : Path) (r : BuildResult)
    (h : compileCpp ctx op = .ok r) : r.success = true ∧ r.output ≠ "" := by
  unfold compileCpp at h
  dsimp only at h
  repeat' split at h
  all_goals
    first
    | (injection h with h2; subst h2; exact ⟨rfl, renderAbs_ne_empty _ _⟩)
    | exact directCompileCpp_ok ctx op r h

theorem compileGo_ok (ctx : Ctx) (op : Path) (r : BuildResult)
    (h : compileGo ctx op = .ok r) : r.success = true ∧ r.output ≠ "" := by
  unfold compileGo at h
  repeat' split at h
  all_goals
    first
    | (injection h with h2; subst h2; exact ⟨rfl, renderAbs_ne_empty _ _⟩)
    | cases h

theorem compileRust_ok (ctx : Ctx) (op : Path) (r : BuildResult)
    (h : compileRust ctx op = .ok r) : r.success = true ∧ r.output ≠ "" := by
  unfold compileRust at h
  dsimp only at h
  repeat' split at h
  all_goals
    first
    | (injection h with h2; subst h2; exact ⟨rfl, renderAbs_ne_empty _ _⟩)
    | cases h

theorem prepareNode_ok (ctx : Ctx) (r : BuildResult)
    (h : prepareNode ctx = .ok r) : r.success = true ∧ r.output ≠ "" := by
  unfold prepareNode at h
  dsimp only at h
  repeat' split at h
  all_goals
    first
    | (injection h with h2; subst h2; exact ⟨rfl, renderAbs_ne_empty _ _⟩)
    | cases h

theorem preparePython_ok (ctx : Ctx) (r : BuildResult)
    (h : preparePython ctx = .ok r) : r.success = true ∧ r.output ≠ "" := by
  unfold preparePython at h
  dsimp only at h
  repeat' split at h
  all_goals
    first
    | (injection h with h2; subst h2; exact ⟨rfl, renderAbs_ne_empty _ _⟩)
    | cases h

theorem prepareWeb_ok (ctx : Ctx) (r : BuildResult)
    (h : prepareWeb ctx = .ok r) : r.success = true ∧ r.output ≠ "" := by
  unfold prepareWeb at h
  dsimp only at h
  repeat' split at h
  all_goals
    first
    | (injection h with h2; subst h2; exact ⟨rfl, renderAbs_ne_empty _ _⟩)
    | cases h

theorem prepareReact_ok (ctx : Ctx) (r : BuildResult)
    (h : prepareReact ctx = .ok r) : r.success = true ∧ r.output ≠ "" := by
  unfold prepareReact at h
  dsimp only at h
  repeat' split at h
  all_goals
    first
    | (injection h with h2; subst h2; exact ⟨rfl, renderAbs_ne_empty _ _⟩)
    | cases h

theorem prepareDocker_ok (ctx : Ctx) (r : BuildResult)
    (h : prepareDocker ctx = .ok r) : r.success = true ∧ r.output ≠ "" := by
  unfold prepareDocker at h
  repeat' split at h
  all_goals
    first
    | (injection h with h2; subst h2; exact ⟨rfl, renderAbs_ne_empty _ _⟩)
    | cases h

theorem compileBody_ok (ctx : Ctx) (lang : ProjectType) (op : Path) (r : BuildResult)
    (h : compileBody ctx lang op = .ok r) : r.success = true ∧ r.output ≠ "" := by
  cases lang with
  | c => exact compileC_ok ctx op r h
  | cpp => exact compileCpp_ok ctx op r h
  | go => exact compileGo_ok ctx op r h
  | rust => exact compileRust_ok ctx op r h
  | nodejs => exact prepareNode_ok ctx r h
  | python => exact preparePython_ok ctx r h
  | web => exact prepareWeb_ok ctx r h
  | react => exact prepareReact_ok ctx r h
  | docker => exact prepareDocker_ok ctx r h

/-- C2: `compile` never throws -- its result type already carries every
failure, because the per-type builders' thrown errors are all captured by
the surrounding catch into a failed result holding the error message --
and every successful result carries a non-empty artifact path or entry
command. -/
theorem compile_never_throws (ctx : Ctx) (lang : ProjectType) (buildDirRel : Path) :
    ((compile ctx lang buildDirRel).success = true →
      (compile ctx lang buildDirRel).output ≠ "" ∨
        (compile ctx lang buildDirRel).executable ≠ "") ∧
    ((compile ctx lang buildDirRel).success = false →
      (compile ctx lang buildDirRel).error.isSome = true) := by
  unfold compile
  dsimp only
  cases hb : compileBody ctx lang (buildDirRel ++ [getOutputName ctx lang]) with
  | ok r =>
    obtain ⟨hs, ho⟩ := compileBody_ok ctx lang _ r hb
    exact ⟨fun _ => Or.inl ho, fun hf => by rw [hs] at hf; cases hf⟩
  | error msg => exact ⟨fun hs => by simp at hs, fun _ => rfl⟩

/-- An empty project directory with an all-succeeding environment. -/
def c2Ctx : Ctx :=
  { rootComps := ["home", "u", "proj"], root := .dir "proj" true [], env := envOk }

/-- Witness for C2 at a concrete failing build (a docker build without a
Dockerfile): the failure is a result with a present error message. -/
theorem compile_never_throws_witness :
    (compile c2Ctx ProjectType.docker ["build"]).error.isSome = true :=
  (compile_never_throws c2Ctx ProjectType.docker ["build"]).2 (by decide)

theorem compileC_fallback (ctx : Ctx) (mk : Path) (op : Path)
    (hmk : mkLookup ctx.root = some mk)
    (hmake : ctx.env.run "make" (some mk.dropLast) = .ok ())
    (hnoexec : searchExecutable ctx.root mk.dropLast = none)
    (hnoroot : findExecChildNoDot ctx.root mk.dropLast = none) :
    compileC ctx op = directCompileC ctx op := by
  unfold compileC
  rw [hmk]
  dsimp only
  rw [hmake, hnoexec, hnoroot]
  rfl

theorem compileCpp_fallback (ctx : Ctx) (mk : Path) (op : Path)
    (hmk : mkLookup ctx.root = some mk)
    (hmake : ctx.env.run "make" (some mk.dropLast) = .ok ())
    (hnoexec : searchExecutable ctx.root mk.dropLast = none)
    (hnoroot : findExecChildNoDot ctx.root mk.dropLast = none) :
    compileCpp ctx op = directCompileCpp ctx op := by
  unfold compileCpp
  rw [hmk]
  dsimp only
  rw [hmake, hnoexec, hnoroot]
  rfl

/-- C5: when a found Makefile's `make` run succeeds but no
executable-flagged regular file is found in any of the conventional
output locations (the Makefile's directory and its `build`/`bin`/`out`/
`dist` subdirectories, including the dot-free root re-check), the native C
and C++ build procedures do not fail there: each falls back to direct
compiler invocation over the recursively discovered sources, and the
overall `compile` result is a failure exactly when that fallback itself
fails. -/
theorem make_success_no_artifact_falls_back (ctx : Ctx) (mk : Path) (b : Path)
    (hmk : mkLookup ctx.root = some mk)
    (hmake : ctx.env.run "make" (some mk.dropLast) = .ok ())
    (hnoexec : searchExecutable ctx.root mk.dropLast = none)
    (hnoroot : findExecChildNoDot ctx.root mk.dropLast = none) :
    compileC ctx (b ++ [getOutputName ctx ProjectType.c])
        = directCompileC ctx (b ++ [getOutputName ctx ProjectType.c]) ∧
    compileCpp ctx (b ++ [getOutputName ctx ProjectType.cpp])
        = directCompileCpp ctx (b ++ [getOutputName ctx ProjectType.cpp]) ∧
    ((compile ctx ProjectType.c b).success = false ↔
      ∃ e, directCompileC ctx (b ++ [getOutputName ctx ProjectType.c]) = .error e) ∧
    ((compile ctx ProjectType.cpp b).success = false ↔
      ∃ e, directCompileCpp ctx (b ++ [getOutputName ctx ProjectType.cpp]) = .error e) := by
  have hC := compileC_fallback ctx mk (b ++ [getOutputName ctx ProjectType.c])
    hmk hmake hnoexec hnoroot
  have hCpp := compileCpp_fallback ctx mk (b ++ [getOutputName ctx ProjectType.cpp])
    hmk hmake hnoexec hnoroot
  refine ⟨hC, hCpp, ?_, ?_⟩
  · unfold compile
    dsimp only
    show ((match compileC ctx (b ++ [getOutputName ctx ProjectType.c]) with
      | .ok r => r
      | .error msg => { success := false, error := some msg } : BuildResult).success = false)
      ↔ _
    rw [hC]
    cases hd : directCompileC ctx (b ++ [getOutputName ctx ProjectType.c]) with
    | ok r =>
      obtain ⟨hs, _⟩ := directCompileC_ok ctx _ r hd
      simp [hs]
    | error e => simp
  · unfold compile
    dsimp only
    show ((match compileCpp ctx (b ++ [getOutputName ctx ProjectType.cpp]) with
      | .ok r => r
      | .error msg => { success := false, error := some msg } : BuildResult).success = false)
      ↔ _
    rw [hCpp]
    cases hd : directCompileCpp ctx (b ++ [getOutputName ctx ProjectType.cpp]) with
    | ok r =>
      obtain ⟨hs, _⟩ := directCompileCpp_ok ctx _ r hd
      simp [hs]
    | error e => simp

/-- `c5Ctx`: a C project whose Makefile run "succeeds" yet produces no
executable anywhere. -/
def c5Ctx : Ctx :=
  { rootComps := ["home", "u", "proj"],
    root := .dir "proj" true [plainFile "Makefile" "all:", plainFile "main.c"],
    env := envOk }

/-- Witness for C5 at `c5Ctx`: the C build equals its direct-compilation
fallback. -/
theorem make_success_no_artifact_falls_back_witness :
    compileC c5Ctx (["build"] ++ [getOutputName c5Ctx ProjectType.c])
      = directCompileC c5Ctx (["build"] ++ [getOutputName c5Ctx ProjectType.c]) :=
  (make_success_no_artifact_falls_back c5Ctx ["Makefile"] ["build"]
    (by decide) rfl (by decide) (by decide)).1

theorem pathExists_removeChild_self (e : Entry) (n : String) :
    pathExists (removeChild e n) [n] = false := by
  cases e with
  | file nm d => rfl
  | dir nm r ch =>
    unfold pathExists removeChild lookupPath
    dsimp only
    rw [List.find?_eq_none.2]
    · rfl
    · intro c hc
      have h2 := (List.mem_filter.1 hc).2
      simp only [bne_iff_ne, ne_eq] at h2
      simp [h2]

theorem pathExists_removeChild_mono (e : Entry) (n x : String)
    (hx : pathExists e [x] = false) : pathExists (removeChild e n) [x] = false := by
  cases e with
  | file nm d => exact hx
  | dir nm r ch =>
    unfold pathExists removeChild lookupPath
    dsimp only
    unfold pathExists lookupPath at hx
    dsimp only at hx
    rw [List.find?_eq_none.2]
    · rfl
    · intro c hc
      intro hcx
      rcases hfind : ch.find? (fun c2 => c2.name == x) with _ | c2
      · have := List.find?_eq_none.1 hfind c (List.mem_filter.1 hc).1
        exact this hcx
      · rw [hfind] at hx
        cases hx

theorem cleanStep_preserves_absent (a : Entry × List String) (d x : String)
    (hx : pathExists a.1 [x] = false) : pathExists (cleanStep a d).1 [x] = false := by
  unfold cleanStep
  split
  · exact pathExists_removeChild_mono a.1 d x hx
  · exact hx

theorem cleanStep_absent_self (a : Entry × List String) (d : String) :
    pathExists (cleanStep a d).1 [d] = false := by
  unfold cleanStep
  split
  · exact pathExists_removeChild_self a.1 d
  · rename_i h
    simpa using h

theorem cleanFold_preserves_absent (l : List String) (a : Entry × List String) (x : String)
    (hx : pathExists a.1 [x] = false) :
    pathExists (l.foldl cleanStep a).1 [x] = false := by
  induction l generalizing a with
  | nil => exact hx
  | cons d rest ih =>
    rw [List.foldl_cons]
    exact ih (cleanStep a d) (cleanStep_preserves_absent a d x hx)

theorem cleanFold_removes_mem (l : List String) (a : Entry × List String) (x : String)
    (hx : x ∈ l) : pathExists (l.foldl cleanStep a).1 [x] = false := by
  induction l generalizing a with
  | nil => cases hx
  | cons d rest ih =>
    rw [List.foldl_cons]
    rcases List.mem_cons.1 hx with rfl | hx2
    · exact cleanFold_preserves_absent rest (cleanStep a x) x (cleanStep_absent_self a x)
    · exact ih (cleanStep a d) hx2

theorem cleanFold_noop (l : List String) (a : Entry × List String)
    (h : ∀ d ∈ l, pathExists a.1 [d] = false) : l.foldl cleanStep a = a := by
  induction l with
  | nil => rfl
  | cons d rest ih =>
    rw [List.foldl_cons]
    have hstep : cleanStep a d = a := by
      unfold cleanStep
      rw [h d (List.mem_cons_self _ _)]
      rfl
    rw [hstep]
    exact ih (fun d2 hd2 => h d2 (List.mem_cons_of_mem d hd2))

theorem clean_fs_no_build (env : Env) (root : Entry) :
    pathExists (clean env root).fs ["build"] = false := by
  unfold clean
  dsimp only
  apply cleanFold_preserves_absent
  rcases hb : pathExists root ["build"] with _ | _
  · exact hb
  · exact pathExists_removeChild_self root "build"

theorem clean_fs_no_common (env : Env) (root : Entry) (d : String)
    (hd : d ∈ cleanCommonDirs) : pathExists (clean env root).fs [d] = false := by
  unfold clean
  dsimp only
  exact cleanFold_removes_mem cleanCommonDirs _ d hd

theorem clean_of_absent (env : Env) (fs1 : Entry)
    (hb : pathExists fs1 ["build"] = false)
    (hc : ∀ d ∈ cleanCommonDirs, pathExists fs1 [d] = false) :
    (clean env fs1).removedBuild = false ∧ (clean env fs1).removedCommon = [] ∧
      (clean env fs1).fs = fs1 := by
  unfold clean
  rw [hb]
  simp only [Bool.false_eq_true, if_false]
  rw [cleanFold_noop cleanCommonDirs (fs1, []) hc]
  exact ⟨trivial, rfl, rfl⟩

/-- C9: `clean` is idempotent with respect to errors: it is a total
operation (a missing build directory takes the does-not-exist report
branch and a failing `make clean` is swallowed, never surfaced), and
running it twice in a row leaves nothing for the second run: the second
run reports the canonical build directory as absent (`removedBuild =
false`, the nothing-to-clean message) rather than failing, removes no
common directory, and leaves the tree unchanged. -/
theorem clean_idempotent (env : Env) (root : Entry) :
    (clean env (clean env root).fs).removedBuild = false ∧
    (clean env (clean env root).fs).removedCommon = [] ∧
    (clean env (clean env root).fs).fs = (clean env root).fs :=
  clean_of_absent env (clean env root).fs (clean_fs_no_build env root)
    (fun d hd => clean_fs_no_common env root d hd)

end SmartCompiler
